import Mathlib

set_option maxHeartbeats 1000000

/-!
Verification development for the DiffNet repository (rocketmlhq/DiffNet).

Shallow embedding of:
- the residual assemblers `Poisson.loss`
  (examples/poisson/single_instance/15_klsum_statistical analysis.py) and
  `Stokes.loss` (examples/stokes/single_instance/01_weak_form_ldc.py),
- the boundary-condition masking convention (`torch.where` select-by-mask),
- the datasets `Rectangle` (DiffNet/datasets/single_instances/rectangles.py)
  and `LDC` (the Stokes example file).

Tensors are modelled as total functions over `Fin`-indexed grids with exact
rational entries; torch elementwise operations become pointwise functions,
`torch.sum(t, 1)` a `Finset.sum` over the quadrature axis, and `torch.mean`
a sum divided by the element count.  The `DiffNet2DFEM` evaluation engine
(class `DiffNet.DiffNetFEM.DiffNet2DFEM`) is not among the source files;
it is modelled from the spec as an abstract structure, see below.
-/

/-- A batched single-channel grid tensor of shape (B, 1, H, W): the singleton
channel axis is kept implicit. -/
abbrev Grid (B H W : ℕ) := Fin B → Fin H → Fin W → ℚ

/-- A batched multi-channel grid tensor of shape (B, C, H, W). -/
abbrev Chan (B C H W : ℕ) := Fin B → Fin C → Fin H → Fin W → ℚ

/-- A quadrature-point tensor of shape (B, NQ, E1, E2): per batch instance,
per quadrature point, per element of the E1 x E2 element tiling. -/
abbrev QPT (B NQ E1 E2 : ℕ) := Fin B → Fin NQ → Fin E1 → Fin E2 → ℚ

/-- A boolean grid tensor, as produced by an elementwise comparison. -/
abbrev BGrid (B H W : ℕ) := Fin B → Fin H → Fin W → Bool

/-- Elementwise `tensor > scalar` comparison. -/
def tgtS {B H W : ℕ} (t : Grid B H W) (s : ℚ) : BGrid B H W :=
  fun b i j => decide (s < t b i j)

/-- Elementwise `tensor >= scalar` comparison. -/
def tgeS {B H W : ℕ} (t : Grid B H W) (s : ℚ) : BGrid B H W :=
  fun b i j => decide (s ≤ t b i j)

/-- Elementwise `torch.logical_or` on boolean grids. -/
def tlogicalOr {B H W : ℕ} (c d : BGrid B H W) : BGrid B H W :=
  fun b i j => c b i j || d b i j

/-- Elementwise `tensor * scalar`. -/
def tmulS {B H W : ℕ} (t : Grid B H W) (s : ℚ) : Grid B H W :=
  fun b i j => t b i j * s

/-- Elementwise `scalar + tensor`. -/
def tScalarAdd {B H W : ℕ} (s : ℚ) (t : Grid B H W) : Grid B H W :=
  fun b i j => s + t b i j

/-- Elementwise `tensor + scalar`. -/
def tAddScalar {B H W : ℕ} (t : Grid B H W) (s : ℚ) : Grid B H W :=
  fun b i j => t b i j + s

/-- `torch.where(cond, x, y)` on same-shape grids: elementwise selection. -/
def torchWhere {B H W : ℕ} (c : BGrid B H W) (x y : Grid B H W) : Grid B H W :=
  fun b i j => if c b i j then x b i j else y b i j

/-- Channel slice `t[:, k:k+1, :, :]` of a multi-channel tensor, with the
singleton channel axis dropped. -/
def sliceC {B C H W : ℕ} (t : Chan B C H W) (k : Fin C) : Grid B H W :=
  fun b i j => t b k i j

/-- `torch.mean` of a (B, E1, E2) tensor: the sum of all entries divided by
the number of entries. -/
def torchMean {B E1 E2 : ℕ} (t : Fin B → Fin E1 → Fin E2 → ℚ) : ℚ :=
  (∑ b, ∑ i, ∑ j, t b i j) / (B * E1 * E2)

/-- Modelled from the spec: the `DiffNet2DFEM` field-evaluation engine
(class `DiffNet.DiffNetFEM.DiffNet2DFEM`, whose source file is not among
the sources at hand; the example files only subclass it).  Per the spec,
the engine lifts a nodal field tensor to per-element, per-quadrature-point
values (`gauss_pt_evaluation`) and physical x- and y-derivatives
(`gauss_pt_evaluation_der_x`, `gauss_pt_evaluation_der_y`), and supplies
the per-quadrature-point integration weight `gpw` (precombined with the
geometric Jacobian scaling) used by the residual assemblers. -/
structure DiffNet2DFEM (B H W NQ E1 E2 : ℕ) where
  gauss_pt_evaluation : Grid B H W → QPT B NQ E1 E2
  gauss_pt_evaluation_der_x : Grid B H W → QPT B NQ E1 E2
  gauss_pt_evaluation_der_y : Grid B H W → QPT B NQ E1 E2
  gpw : Fin NQ → ℚ

/-- The boundary-condition masking applied inside `Poisson.loss`
(lines 71 and 72 of the Poisson example):
`u = torch.where(bc1>0.5, 1.0+u*0.0, u)` then
`u = torch.where(bc2>0.5, u*0.0, u)`. -/
def Poisson.applyBC {B H W : ℕ} (u bc1 bc2 : Grid B H W) : Grid B H W :=
  let u1 := torchWhere (tgtS bc1 (1/2)) (tScalarAdd 1 (tmulS u 0)) u
  torchWhere (tgtS bc2 (1/2)) (tmulS u1 0) u1

/-- `Poisson.loss` (lines 61 to 86 of the Poisson example): extract nu, bc1,
bc2 from the inputs tensor, apply the boundary-condition masking, evaluate
the masked field, its derivatives, the diffusivity and the forcing at the
quadrature points, weight by `gpw`, sum over quadrature points per element
and take the mean. -/
def Poisson.loss {B H W NQ E1 E2 : ℕ} (self : DiffNet2DFEM B H W NQ E1 E2)
    (u : Grid B H W) (inputs_tensor : Chan B 3 H W)
    (forcing_tensor : Grid B H W) : ℚ :=
  let f := forcing_tensor
  let nu := sliceC inputs_tensor 0
  let bc1 := sliceC inputs_tensor 1
  let bc2 := sliceC inputs_tensor 2
  let u2 := Poisson.applyBC u bc1 bc2
  let nu_gp := self.gauss_pt_evaluation nu
  let f_gp := self.gauss_pt_evaluation f
  let u_gp := self.gauss_pt_evaluation u2
  let u_x_gp := self.gauss_pt_evaluation_der_x u2
  let u_y_gp := self.gauss_pt_evaluation_der_y u2
  let res_elmwise : QPT B NQ E1 E2 := fun b q e1 e2 =>
    self.gpw q * (nu_gp b q e1 e2 * (u_x_gp b q e1 e2 ^ 2 + u_y_gp b q e1 e2 ^ 2)
      - u_gp b q e1 e2 * f_gp b q e1 e2)
  let res_summed : Fin B → Fin E1 → Fin E2 → ℚ := fun b e1 e2 =>
    ∑ q, res_elmwise b q e1 e2
  torchMean res_summed

/-- The formula claimed by the spec for the Poisson assembler, written from
the spec sentence: residual(qp) = weight(qp) x [ coefficient(qp) x
(grad u . grad u) - u(qp) x forcing(qp) ], summed over quadrature points
per element, then averaged over elements and batch, with all quadrature
quantities of the field taken on the masked field. -/
def Poisson.lossSpecFormula {B H W NQ E1 E2 : ℕ}
    (self : DiffNet2DFEM B H W NQ E1 E2) (u : Grid B H W)
    (inputs_tensor : Chan B 3 H W) (forcing_tensor : Grid B H W) : ℚ :=
  let um := Poisson.applyBC u (sliceC inputs_tensor 1) (sliceC inputs_tensor 2)
  torchMean (fun b e1 e2 => ∑ q,
    self.gpw q *
      (self.gauss_pt_evaluation (sliceC inputs_tensor 0) b q e1 e2 *
          (self.gauss_pt_evaluation_der_x um b q e1 e2 ^ 2 +
            self.gauss_pt_evaluation_der_y um b q e1 e2 ^ 2)
        - self.gauss_pt_evaluation um b q e1 e2 *
            self.gauss_pt_evaluation forcing_tensor b q e1 e2))

/-- The u-component masking applied inside `Stokes.loss` (lines 92 and 93
of the Stokes example): `u = torch.where(bc1>=0.5, u*0.0, u)` then
`u = torch.where(bc2>=0.5, u*0.0 + 1.0, u)`. -/
def Stokes.applyBC_u {B H W : ℕ} (u bc1 bc2 : Grid B H W) : Grid B H W :=
  let u1 := torchWhere (tgeS bc1 (1/2)) (tmulS u 0) u
  torchWhere (tgeS bc2 (1/2)) (tAddScalar (tmulS u1 0) 1) u1

/-- The v-component masking applied inside `Stokes.loss` (line 96):
`v = torch.where(torch.logical_or(bc1>=0.5, bc2>=0.5), v*0.0, v)`. -/
def Stokes.applyBC_v {B H W : ℕ} (v bc1 bc2 : Grid B H W) : Grid B H W :=
  torchWhere (tlogicalOr (tgeS bc1 (1/2)) (tgeS bc2 (1/2))) (tmulS v 0) v

/-- The p-component masking applied inside `Stokes.loss` (line 98):
`p = torch.where(bc3>=0.5, p*0.0, p)`. -/
def Stokes.applyBC_p {B H W : ℕ} (p bc3 : Grid B H W) : Grid B H W :=
  torchWhere (tgeS bc3 (1/2)) (tmulS p 0) p

/-- `Stokes.loss` (lines 77 to 118 of the Stokes example): slice u, v, p
from the prediction tensor and bc1, bc2, bc3 from the inputs tensor, apply
the boundary-condition masking per component, evaluate at quadrature
points, assemble the two residual terms and combine them with the penalty
weight 100 before the mean. -/
def Stokes.loss {B H W NQ E1 E2 : ℕ} (self : DiffNet2DFEM B H W NQ E1 E2)
    (pred : Chan B 3 H W) (inputs_tensor : Chan B 4 H W)
    (forcing_tensor : Grid B H W) : ℚ :=
  let f := forcing_tensor
  let u := sliceC pred 0
  let v := sliceC pred 1
  let p := sliceC pred 2
  let bc1 := sliceC inputs_tensor 1
  let bc2 := sliceC inputs_tensor 2
  let bc3 := sliceC inputs_tensor 3
  let u2 := Stokes.applyBC_u u bc1 bc2
  let v2 := Stokes.applyBC_v v bc1 bc2
  let p2 := Stokes.applyBC_p p bc3
  let p_gp := self.gauss_pt_evaluation p2
  let p_x_gp := self.gauss_pt_evaluation_der_x p2
  let f_gp := self.gauss_pt_evaluation f
  let u_x_gp := self.gauss_pt_evaluation_der_x u2
  let u_y_gp := self.gauss_pt_evaluation_der_y u2
  let v_x_gp := self.gauss_pt_evaluation_der_x v2
  let v_y_gp := self.gauss_pt_evaluation_der_y v2
  let res_elmwise1 : QPT B NQ E1 E2 := fun b q e1 e2 =>
    self.gpw q *
      ((u_x_gp b q e1 e2 ^ 2 + u_y_gp b q e1 e2 ^ 2 + v_x_gp b q e1 e2 ^ 2
          + v_y_gp b q e1 e2 ^ 2) * f_gp b q e1 e2
        - p_gp b q e1 e2 * (u_x_gp b q e1 e2 + v_y_gp b q e1 e2)) ^ 2
  let res_elmwise2 : QPT B NQ E1 E2 := fun b q e1 e2 =>
    self.gpw q *
      ((p_gp b q e1 e2 * (u_x_gp b q e1 e2 + v_y_gp b q e1 e2)) ^ 2
        + (1/100) * p_x_gp b q e1 e2 ^ 2)
  let res_elmwise : Fin B → Fin E1 → Fin E2 → ℚ := fun b e1 e2 =>
    (∑ q, res_elmwise1 b q e1 e2) + 100 * ∑ q, res_elmwise2 b q e1 e2
  torchMean res_elmwise

/-- The formula claimed by the spec for the Stokes assembler: the mean over
elements and batch of the weighted momentum residual term plus 100 times
the weighted continuity-and-stabilization term, on the masked fields. -/
def Stokes.lossSpecFormula {B H W NQ E1 E2 : ℕ}
    (self : DiffNet2DFEM B H W NQ E1 E2) (pred : Chan B 3 H W)
    (inputs_tensor : Chan B 4 H W) (forcing_tensor : Grid B H W) : ℚ :=
  let um := Stokes.applyBC_u (sliceC pred 0) (sliceC inputs_tensor 1)
    (sliceC inputs_tensor 2)
  let vm := Stokes.applyBC_v (sliceC pred 1) (sliceC inputs_tensor 1)
    (sliceC inputs_tensor 2)
  let pm := Stokes.applyBC_p (sliceC pred 2) (sliceC inputs_tensor 3)
  torchMean (fun b e1 e2 =>
    (∑ q, self.gpw q *
      ((self.gauss_pt_evaluation_der_x um b q e1 e2 ^ 2
          + self.gauss_pt_evaluation_der_y um b q e1 e2 ^ 2
          + self.gauss_pt_evaluation_der_x vm b q e1 e2 ^ 2
          + self.gauss_pt_evaluation_der_y vm b q e1 e2 ^ 2)
            * self.gauss_pt_evaluation forcing_tensor b q e1 e2
        - self.gauss_pt_evaluation pm b q e1 e2 *
            (self.gauss_pt_evaluation_der_x um b q e1 e2
              + self.gauss_pt_evaluation_der_y vm b q e1 e2)) ^ 2)
    + 100 * ∑ q, self.gpw q *
      ((self.gauss_pt_evaluation pm b q e1 e2 *
          (self.gauss_pt_evaluation_der_x um b q e1 e2
            + self.gauss_pt_evaluation_der_y vm b q e1 e2)) ^ 2
        + (1/100) * self.gauss_pt_evaluation_der_x pm b q e1 e2 ^ 2))

/-- Claim C1: for every nodal field u, inputs tensor (nu, bc1, bc2 stacked
along the channel axis) and forcing tensor of matching grid shape,
`Poisson.loss` returns the mean over elements and batch of the per-element
sum over quadrature points of gpw(qp) x [ nu(qp) x (u_x(qp)^2 + u_y(qp)^2)
- u(qp) x f(qp) ], with all quadrature-point quantities of the field taken
on the field after the boundary-condition masking. -/
theorem poisson_loss_eq_spec_formula {B H W NQ E1 E2 : ℕ}
    (self : DiffNet2DFEM B H W NQ E1 E2) (u : Grid B H W)
    (inputs_tensor : Chan B 3 H W) (forcing_tensor : Grid B H W) :
    Poisson.loss self u inputs_tensor forcing_tensor =
      Poisson.lossSpecFormula self u inputs_tensor forcing_tensor := by
  rfl

/-- Claim C5: `Stokes.loss` equals the mean over elements and batch of
[ sum_qp gpw x ((u_x^2+u_y^2+v_x^2+v_y^2) x f - p x (u_x+v_y))^2 + 100 x
sum_qp gpw x ((p x (u_x+v_y))^2 + 0.01 x p_x^2) ] computed on the masked
fields, with the penalty constants 100 and 0.01 fixed. -/
theorem stokes_loss_eq_spec_formula {B H W NQ E1 E2 : ℕ}
    (self : DiffNet2DFEM B H W NQ E1 E2) (pred : Chan B 3 H W)
    (inputs_tensor : Chan B 4 H W) (forcing_tensor : Grid B H W) :
    Stokes.loss self pred inputs_tensor forcing_tensor =
      Stokes.lossSpecFormula self pred inputs_tensor forcing_tensor := by
  rfl

/-- Row assignment `A[r:r+1, :] = v` (also `A[r, :] = v` and, for `r = n-1`,
`A[-1:, :] = v`) on a square numpy array. -/
def setRow {n : ℕ} (A : Fin n → Fin n → ℚ) (r : ℕ) (v : ℚ) :
    Fin n → Fin n → ℚ :=
  fun i j => if i.val = r then v else A i j

/-- Column assignment `A[:, c:c+1] = v` on a square numpy array. -/
def setCol {n : ℕ} (A : Fin n → Fin n → ℚ) (c : ℕ) (v : ℚ) :
    Fin n → Fin n → ℚ :=
  fun i j => if j.val = c then v else A i j

/-- Single-entry assignment `A[r:r+1, c:c+1] = v`. -/
def setEntry {n : ℕ} (A : Fin n → Fin n → ℚ) (r c : ℕ) (v : ℚ) :
    Fin n → Fin n → ℚ :=
  fun i j => if i.val = r ∧ j.val = c then v else A i j

/-- The `LDC` dataset's bc1 mask (fixed walls): zeros, then column 0,
column n-1 and row 0 set to 1. -/
def LDC.bc1 (n : ℕ) : Fin n → Fin n → ℚ :=
  setRow (setCol (setCol (fun _ _ => 0) 0 1) (n-1) 1) 0 1

/-- The `LDC` dataset's bc2 mask (moving lid): zeros, then the last row
set to 1. -/
def LDC.bc2 (n : ℕ) : Fin n → Fin n → ℚ :=
  setRow (fun _ _ => 0) (n-1) 1

/-- The `LDC` dataset's bc3 mask (pressure pin): zeros, then the single
entry (0, 0) set to 1. -/
def LDC.bc3 (n : ℕ) : Fin n → Fin n → ℚ :=
  setEntry (fun _ _ => 0) 0 0 1

/-- An `LDC` bc1 entry reaches the 0.5 threshold exactly on column 0,
column n-1 and row 0. -/
theorem LDC.bc1_ge_half (n : ℕ) (i j : Fin n) :
    (1/2 : ℚ) ≤ LDC.bc1 n i j ↔ (i.val = 0 ∨ j.val = n-1 ∨ j.val = 0) := by
  unfold LDC.bc1 setRow setCol
  split_ifs with h1 h2 h3
  · exact iff_of_true (by norm_num) (Or.inl h1)
  · exact iff_of_true (by norm_num) (Or.inr (Or.inl h2))
  · exact iff_of_true (by norm_num) (Or.inr (Or.inr h3))
  · exact iff_of_false (by show ¬(1/2 : ℚ) ≤ 0; norm_num) (by tauto)

/-- An `LDC` bc2 entry reaches the 0.5 threshold exactly on the last row. -/
theorem LDC.bc2_ge_half (n : ℕ) (i j : Fin n) :
    (1/2 : ℚ) ≤ LDC.bc2 n i j ↔ i.val = n-1 := by
  unfold LDC.bc2 setRow
  split_ifs with h1
  · exact iff_of_true (by norm_num) h1
  · exact iff_of_false (by show ¬(1/2 : ℚ) ≤ 0; norm_num) h1

/-- Claim C2: inside `Poisson.loss` the masking is a pure selection: with
mask entries in 0, 1 and no overlap, the masked field is 1 wherever bc1
exceeds the 0.5 threshold, 0 wherever bc2 exceeds it, and the original u
wherever neither mask exceeds it. -/
theorem poisson_applyBC_selects {B H W : ℕ} (u bc1 bc2 : Grid B H W)
    (hbc1 : ∀ b i j, bc1 b i j = 0 ∨ bc1 b i j = 1)
    (hbc2 : ∀ b i j, bc2 b i j = 0 ∨ bc2 b i j = 1)
    (hdisj : ∀ b i j, ¬(bc1 b i j = 1 ∧ bc2 b i j = 1)) :
    ∀ b i j,
      ((1/2 : ℚ) < bc1 b i j → Poisson.applyBC u bc1 bc2 b i j = 1) ∧
      ((1/2 : ℚ) < bc2 b i j → Poisson.applyBC u bc1 bc2 b i j = 0) ∧
      (¬ (1/2 : ℚ) < bc1 b i j → ¬ (1/2 : ℚ) < bc2 b i j →
        Poisson.applyBC u bc1 bc2 b i j = u b i j) := by
  intro b i j
  refine ⟨?_, ?_, ?_⟩
  · intro h
    have h1 : bc1 b i j = 1 := by
      rcases hbc1 b i j with h0 | h0
      · rw [h0] at h; norm_num at h
      · exact h0
    have h2 : bc2 b i j = 0 := by
      rcases hbc2 b i j with h0 | h0
      · exact h0
      · exact absurd ⟨h1, h0⟩ (hdisj b i j)
    simp only [Poisson.applyBC, torchWhere, tgtS, tmulS, tScalarAdd, h1, h2]
    norm_num
  · intro h
    simp only [Poisson.applyBC, torchWhere, tgtS, tmulS, tScalarAdd,
      decide_eq_true_eq]
    rw [if_pos h]
    ring
  · intro h1 h2
    simp only [Poisson.applyBC, torchWhere, tgtS, tmulS, tScalarAdd,
      decide_eq_true_eq]
    rw [if_neg h2, if_neg h1]

/-- Witness for C2 at a concrete input: bc1 identically 1, bc2 identically
0 on a 1 x 1 x 1 grid, u identically 5: the masked value is 1. -/
theorem poisson_applyBC_selects_witness :
    Poisson.applyBC (B := 1) (H := 1) (W := 1)
      (fun _ _ _ => (5 : ℚ)) (fun _ _ _ => 1) (fun _ _ _ => 0) 0 0 0 = 1 :=
  (poisson_applyBC_selects (B := 1) (H := 1) (W := 1)
    (fun _ _ _ => (5 : ℚ)) (fun _ _ _ => 1) (fun _ _ _ => 0)
    (fun _ _ _ => Or.inr rfl) (fun _ _ _ => Or.inl rfl)
    (fun _ _ _ h => by norm_num at h) 0 0 0).1 (by norm_num)

/-- Claim C3: the later-applied mask wins at overlapping locations: in the
`Stokes.loss` u-masking, wherever both bc1 and bc2 reach the 0.5 threshold
the masked u is 1.0 (bc2's lid value), not bc1's 0.0; and for the LDC
dataset with domain_size at least 2 the overlap locations are exactly the
two nodes (last row, column 0) and (last row, last column). -/
theorem stokes_applyBC_overlap_bc2_wins :
    (∀ (B H W : ℕ) (u bc1 bc2 : Grid B H W) (b : Fin B) (i : Fin H)
        (j : Fin W), (1/2 : ℚ) ≤ bc1 b i j → (1/2 : ℚ) ≤ bc2 b i j →
        Stokes.applyBC_u u bc1 bc2 b i j = 1) ∧
    (∀ (n : ℕ), 2 ≤ n → ∀ (i j : Fin n),
        ((1/2 : ℚ) ≤ LDC.bc1 n i j ∧ (1/2 : ℚ) ≤ LDC.bc2 n i j) ↔
          (i.val = n-1 ∧ (j.val = 0 ∨ j.val = n-1))) := by
  constructor
  · intro B H W u bc1 bc2 b i j h1 h2
    simp only [Stokes.applyBC_u, torchWhere, tgeS, tmulS, tAddScalar,
      decide_eq_true_eq]
    rw [if_pos h2]
    split_ifs <;> ring
  · intro n hn i j
    rw [LDC.bc1_ge_half, LDC.bc2_ge_half]
    have hi := i.isLt
    have hj := j.isLt
    omega

/-- Witness for C3 at concrete inputs: overlap masking on a 1 x 1 x 1 grid
with both masks 1 yields u = 1, and on the 3 x 3 LDC dataset the node
(2, 0) is an overlap node. -/
theorem stokes_applyBC_overlap_bc2_wins_witness :
    Stokes.applyBC_u (B := 1) (H := 1) (W := 1)
      (fun _ _ _ => (7 : ℚ)) (fun _ _ _ => 1) (fun _ _ _ => 1) 0 0 0 = 1 ∧
    ((1/2 : ℚ) ≤ LDC.bc1 3 2 0 ∧ (1/2 : ℚ) ≤ LDC.bc2 3 2 0) :=
  ⟨stokes_applyBC_overlap_bc2_wins.1 1 1 1 (fun _ _ _ => (7 : ℚ))
      (fun _ _ _ => 1) (fun _ _ _ => 1) 0 0 0 (by norm_num) (by norm_num),
    (stokes_applyBC_overlap_bc2_wins.2 3 (by norm_num) 2 0).2
      ⟨by decide, Or.inl (by decide)⟩⟩

/-- Claim C4: boundary masking is idempotent: applying the Poisson masking
sequence twice with the same masks equals applying it once, and likewise
for each of the Stokes u, v, p masking sequences. -/
theorem maskBC_idempotent :
    (∀ (B H W : ℕ) (u bc1 bc2 : Grid B H W),
      Poisson.applyBC (Poisson.applyBC u bc1 bc2) bc1 bc2 =
        Poisson.applyBC u bc1 bc2) ∧
    (∀ (B H W : ℕ) (u bc1 bc2 : Grid B H W),
      Stokes.applyBC_u (Stokes.applyBC_u u bc1 bc2) bc1 bc2 =
        Stokes.applyBC_u u bc1 bc2) ∧
    (∀ (B H W : ℕ) (v bc1 bc2 : Grid B H W),
      Stokes.applyBC_v (Stokes.applyBC_v v bc1 bc2) bc1 bc2 =
        Stokes.applyBC_v v bc1 bc2) ∧
    (∀ (B H W : ℕ) (p bc3 : Grid B H W),
      Stokes.applyBC_p (Stokes.applyBC_p p bc3) bc3 =
        Stokes.applyBC_p p bc3) := by
  refine ⟨?_, ?_, ?_, ?_⟩
  · intro B H W u bc1 bc2
    funext b i j
    simp only [Poisson.applyBC, torchWhere, tgtS, tmulS, tScalarAdd]
    split_ifs <;> ring
  · intro B H W u bc1 bc2
    funext b i j
    simp only [Stokes.applyBC_u, torchWhere, tgeS, tmulS, tAddScalar]
    split_ifs <;> ring
  · intro B H W v bc1 bc2
    funext b i j
    simp only [Stokes.applyBC_v, torchWhere, tgeS, tmulS, tlogicalOr]
    split_ifs <;> ring
  · intro B H W p bc3
    funext b i j
    simp only [Stokes.applyBC_p, torchWhere, tgeS, tmulS]
    split_ifs <;> ring

/-- The `Rectangle` dataset's diffusivity field: `np.ones((n, n))`. -/
def Rectangle.domain (n : ℕ) : Fin n → Fin n → ℚ := fun _ _ => 1

/-- The `Rectangle` dataset's bc1 (source) mask: zeros, then row 0
set to 1 (`self.bc1[0,:] = 1`). -/
def Rectangle.bc1 (n : ℕ) : Fin n → Fin n → ℚ :=
  setRow (fun _ _ => 0) 0 1

/-- The `Rectangle` dataset's bc2 (sink) mask: zeros, then the last row
set to 1 (`self.bc2[-1,:] = 1`). -/
def Rectangle.bc2 (n : ℕ) : Fin n → Fin n → ℚ :=
  setRow (fun _ _ => 0) (n-1) 1

/-- `Rectangle.__getitem__`: stacks domain, bc1, bc2 along the channel axis
into the inputs tensor and pairs it with the zero forcing tensor of shape
(1, n, n); the argument `index` is ignored by the body. -/
def Rectangle.getitem (n index : ℕ) :
    (Fin 3 → Fin n → Fin n → ℚ) × (Fin 1 → Fin n → Fin n → ℚ) :=
  (fun c i j =>
      if c.val = 0 then Rectangle.domain n i j
      else if c.val = 1 then Rectangle.bc1 n i j
      else Rectangle.bc2 n i j,
    fun _ _ _ => 0)

/-- Claim C7: for every domain_size at least 1 and every index,
`Rectangle.__getitem__` returns an inputs tensor of shape (3, n, n) whose
channel 0 is 1 everywhere, channel 1 is 1 exactly on row 0, channel 2 is 1
exactly on the last row, together with a zero forcing tensor of shape
(1, n, n); the result does not depend on the index. -/
theorem rectangle_getitem_spec (n : ℕ) (hn : 1 ≤ n) (index : ℕ) :
    ((∀ i j, (Rectangle.getitem n index).1 0 i j = 1) ∧
      (∀ i j, (Rectangle.getitem n index).1 1 i j =
        if i.val = 0 then 1 else 0) ∧
      (∀ i j, (Rectangle.getitem n index).1 2 i j =
        if i.val = n-1 then 1 else 0) ∧
      (∀ k i j, (Rectangle.getitem n index).2 k i j = 0)) ∧
    (∀ index2 : ℕ, Rectangle.getitem n index = Rectangle.getitem n index2) := by
  refine ⟨⟨?_, ?_, ?_, ?_⟩, ?_⟩
  · intro i j
    simp [Rectangle.getitem, Rectangle.domain]
  · intro i j
    simp [Rectangle.getitem, Rectangle.bc1, setRow]
  · intro i j
    simp [Rectangle.getitem, Rectangle.bc2, setRow]
  · intro k i j
    rfl
  · intro index2
    rfl

/-- Witness for C7 at the concrete input n = 2, index = 0: channel 0 is 1 at
the node (0, 0). -/
theorem rectangle_getitem_spec_witness :
    (Rectangle.getitem 2 0).1 0 0 0 = 1 :=
  (rectangle_getitem_spec 2 (by norm_num) 0).1.1 0 0

/-- Claim C8: for every domain_size at least 2 the `Rectangle` dataset's
source and sink masks are disjoint: no grid location carries 1 in both bc1
and bc2. -/
theorem rectangle_masks_disjoint (n : ℕ) (hn : 2 ≤ n) (i j : Fin n) :
    ¬(Rectangle.bc1 n i j = 1 ∧ Rectangle.bc2 n i j = 1) := by
  intro h
  rcases h with ⟨h1, h2⟩
  simp only [Rectangle.bc1, Rectangle.bc2, setRow] at h1 h2
  by_cases hi0 : i.val = 0
  · by_cases hin : i.val = n-1
    · omega
    · rw [if_neg hin] at h2
      norm_num at h2
  · rw [if_neg hi0] at h1
    norm_num at h1

/-- Witness for C8 at the concrete input n = 3, node (0, 0). -/
theorem rectangle_masks_disjoint_witness :
    ¬(Rectangle.bc1 3 0 0 = 1 ∧ Rectangle.bc2 3 0 0 = 1) :=
  rectangle_masks_disjoint 3 (by norm_num) 0 0

/-- Claim C10: with every quadrature weight non-negative, `Stokes.loss`
returns a non-negative value: both residual terms are gpw-weighted sums of
squares combined with the positive coefficients 1, 100 and 0.01. -/
theorem stokes_loss_nonneg {B H W NQ E1 E2 : ℕ}
    (self : DiffNet2DFEM B H W NQ E1 E2) (pred : Chan B 3 H W)
    (inputs_tensor : Chan B 4 H W) (forcing_tensor : Grid B H W)
    (hgpw : ∀ q, 0 ≤ self.gpw q) :
    0 ≤ Stokes.loss self pred inputs_tensor forcing_tensor := by
  simp only [Stokes.loss, torchMean]
  apply div_nonneg
  · apply Finset.sum_nonneg
    intro b _
    apply Finset.sum_nonneg
    intro e1 _
    apply Finset.sum_nonneg
    intro e2 _
    apply add_nonneg
    · apply Finset.sum_nonneg
      intro q _
      exact mul_nonneg (hgpw q) (sq_nonneg _)
    · apply mul_nonneg (by norm_num)
      apply Finset.sum_nonneg
      intro q _
      refine mul_nonneg (hgpw q) (add_nonneg (sq_nonneg _) ?_)
      exact mul_nonneg (by norm_num) (sq_nonneg _)
  · positivity

/-- A concrete engine instance on the 1 x 1 grid with one element and one
quadrature point of weight 1, used to exercise theorems with hypotheses. -/
def trivialFEM : DiffNet2DFEM 1 1 1 1 1 1 where
  gauss_pt_evaluation := fun g b _ _ _ => g b 0 0
  gauss_pt_evaluation_der_x := fun g b _ _ _ => g b 0 0
  gauss_pt_evaluation_der_y := fun g b _ _ _ => g b 0 0
  gpw := fun _ => 1

/-- Witness for C10 at concrete inputs on the trivial engine. -/
theorem stokes_loss_nonneg_witness :
    0 ≤ Stokes.loss trivialFEM (fun _ _ _ _ => 2) (fun _ _ _ _ => 1)
      (fun _ _ _ => 3) :=
  stokes_loss_nonneg trivialFEM (fun _ _ _ _ => 2) (fun _ _ _ _ => 1)
    (fun _ _ _ => 3) (fun _ => zero_le_one)

/-- A dynamically shaped 4-axis torch tensor with rational entries: the
shape is runtime data, as in the actual torch calls inside the assemblers,
so that shape-mismatch behaviour is observable. -/
structure DT4 where
  s0 : ℕ
  s1 : ℕ
  s2 : ℕ
  s3 : ℕ
  data : ℕ → ℕ → ℕ → ℕ → ℚ

/-- A dynamically shaped boolean 4-axis tensor, as produced by an
elementwise comparison. -/
structure DB4 where
  s0 : ℕ
  s1 : ℕ
  s2 : ℕ
  s3 : ℕ
  data : ℕ → ℕ → ℕ → ℕ → Bool

/-- Broadcasting of one axis pair under the torch rules: two sizes are
compatible exactly when they are equal or one of them is 1. -/
def bdim (a b : ℕ) : Option ℕ :=
  if a = b then some a
  else if a = 1 then some b
  else if b = 1 then some a
  else none

/-- Index mapping into a broadcast operand: a size-1 axis always reads
index 0. -/
def bidx (size idx : ℕ) : ℕ := if size = 1 then 0 else idx

theorem bdim_self (a : ℕ) : bdim a a = some a := by
  unfold bdim
  rw [if_pos rfl]

theorem bdim_one_left (a : ℕ) : bdim 1 a = some a := by
  unfold bdim
  by_cases h : 1 = a
  · rw [if_pos h, h]
  · rw [if_neg h, if_pos rfl]

/-- Elementwise `tensor > scalar` on a dynamic tensor. -/
def dgtS (t : DT4) (s : ℚ) : DB4 :=
  ⟨t.s0, t.s1, t.s2, t.s3, fun i j k l => decide (s < t.data i j k l)⟩

/-- Elementwise `tensor * scalar` on a dynamic tensor. -/
def dmulS (t : DT4) (s : ℚ) : DT4 :=
  ⟨t.s0, t.s1, t.s2, t.s3, fun i j k l => t.data i j k l * s⟩

/-- Elementwise `scalar + tensor` on a dynamic tensor. -/
def dScalarAdd (s : ℚ) (t : DT4) : DT4 :=
  ⟨t.s0, t.s1, t.s2, t.s3, fun i j k l => s + t.data i j k l⟩

/-- `torch.where(cond, x, y)` on dynamic tensors with torch broadcasting
across the three operands; yields none exactly when some axis sizes cannot
be broadcast together (torch raises a generic runtime error there, not a
`ShapeMismatch` of the assembler). -/
def dwhere (c : DB4) (x y : DT4) : Option DT4 :=
  match bdim c.s0 x.s0, bdim c.s1 x.s1, bdim c.s2 x.s2, bdim c.s3 x.s3 with
  | some t0, some t1, some t2, some t3 =>
    match bdim t0 y.s0, bdim t1 y.s1, bdim t2 y.s2, bdim t3 y.s3 with
    | some r0, some r1, some r2, some r3 =>
      some ⟨r0, r1, r2, r3, fun i j k l =>
        if c.data (bidx c.s0 i) (bidx c.s1 j) (bidx c.s2 k) (bidx c.s3 l) then
          x.data (bidx x.s0 i) (bidx x.s1 j) (bidx x.s2 k) (bidx x.s3 l)
        else
          y.data (bidx y.s0 i) (bidx y.s1 j) (bidx y.s2 k) (bidx y.s3 l)⟩
    | _, _, _, _ => none
  | _, _, _, _ => none

/-- The Poisson boundary masking (the first computation performed by
`Poisson.loss`) on dynamically shaped tensors: the two `torch.where`
statements of lines 71 and 72, with torch broadcasting. -/
def Poisson.applyBC_dyn (u bc1 bc2 : DT4) : Option DT4 :=
  match dwhere (dgtS bc1 (1/2)) (dScalarAdd 1 (dmulS u 0)) u with
  | none => none
  | some u1 => dwhere (dgtS bc2 (1/2)) (dmulS u1 0) u1

/-- Counterexample to claim C6 as stated: at the concrete input of a field
of grid shape 2 x 2 and a bc1 mask of grid shape 1 x 2 (a mask tensor that
does not match the declared grid size), `Poisson.loss` does not fail with a
`ShapeMismatch` before computing: its masking stage broadcasts the mask and
proceeds, producing the masked value 1 at the out-of-mask row index 1. -/
theorem poisson_shapeMismatch_counterexample :
    (Poisson.applyBC_dyn ⟨1, 1, 2, 2, fun _ _ _ _ => 5⟩
        ⟨1, 1, 1, 2, fun _ _ _ l => if l = 0 then 1 else 0⟩
        ⟨1, 1, 2, 2, fun _ _ _ _ => 0⟩).isSome = true ∧
    ((Poisson.applyBC_dyn ⟨1, 1, 2, 2, fun _ _ _ _ => 5⟩
        ⟨1, 1, 1, 2, fun _ _ _ l => if l = 0 then 1 else 0⟩
        ⟨1, 1, 2, 2, fun _ _ _ _ => 0⟩).getD
      ⟨0, 0, 0, 0, fun _ _ _ _ => 0⟩).data 0 0 1 0 = 1 := by
  constructor
  · rfl
  · norm_num [Poisson.applyBC_dyn, dwhere, dgtS, dmulS, dScalarAdd, bdim, bidx]

/-- Claim C6 amended: the assemblers perform no shape validation at all: a
boundary-mask tensor whose grid shape differs from the field's but is
broadcast-compatible (here a 1 x W mask against an H x W field) is silently
broadcast, and the masking computation of `Poisson.loss` proceeds without
any failure; no `ShapeMismatch` error exists in the code. -/
theorem poisson_applyBC_dyn_no_shape_validation (H W : ℕ)
    (ud bc1d bc2d : ℕ → ℕ → ℕ → ℕ → ℚ) :
    (Poisson.applyBC_dyn ⟨1, 1, H, W, ud⟩ ⟨1, 1, 1, W, bc1d⟩
      ⟨1, 1, H, W, bc2d⟩).isSome = true := by
  simp only [Poisson.applyBC_dyn, dwhere, dgtS, dmulS, dScalarAdd,
    bdim_self, bdim_one_left]
  rfl

/-- A runtime tensor value: one of the tensor kinds that occur during a
`Poisson.loss` call (grid-shaped, stacked-channel, quadrature-point,
quadrature-summed, scalar). -/
inductive TVal (B H W NQ E1 E2 : ℕ) where
  | grid (g : Grid B H W)
  | chan (t : Chan B 3 H W)
  | qp (t : QPT B NQ E1 E2)
  | red (t : Fin B → Fin E1 → Fin E2 → ℚ)
  | scalar (q : ℚ)

/-- A store of allocated tensor storages with a bump allocator: `cells`
maps addresses to stored tensors, `next` is the next fresh address.  Torch
operations used by the assemblers are all out-of-place: each one writes a
fresh storage and never an existing address. -/
structure Heap (B H W NQ E1 E2 : ℕ) where
  cells : ℕ → Option (TVal B H W NQ E1 E2)
  next : ℕ

/-- Allocate fresh storage for a value: writes at the next free address. -/
def Heap.alloc {B H W NQ E1 E2 : ℕ} (h : Heap B H W NQ E1 E2)
    (v : TVal B H W NQ E1 E2) : ℕ × Heap B H W NQ E1 E2 :=
  (h.next, ⟨fun a => if a = h.next then some v else h.cells a, h.next + 1⟩)

/-- Allocate fresh storage for each value of a list in order. -/
def Heap.allocList {B H W NQ E1 E2 : ℕ} (h : Heap B H W NQ E1 E2) :
    List (TVal B H W NQ E1 E2) → Heap B H W NQ E1 E2
  | [] => h
  | v :: vs => Heap.allocList (h.alloc v).2 vs

/-- Allocation never writes an existing address: every cell below the
allocation frontier is unchanged by a sequence of allocations. -/
theorem Heap.allocList_preserves {B H W NQ E1 E2 : ℕ}
    (vs : List (TVal B H W NQ E1 E2)) (h : Heap B H W NQ E1 E2) (a : ℕ)
    (ha : a < h.next) : (h.allocList vs).cells a = h.cells a := by
  induction vs generalizing h with
  | nil => rfl
  | cons v vs ih =>
    have h1 : (Heap.alloc h v).2.cells a = h.cells a := by
      show (if a = h.next then some v else h.cells a) = h.cells a
      rw [if_neg (by omega)]
    have h2 : a < (Heap.alloc h v).2.next := by
      show a < h.next + 1
      omega
    show (Heap.allocList (h.alloc v).2 vs).cells a = h.cells a
    rw [ih (h.alloc v).2 h2, h1]

/-- `Poisson.loss` as a call against a tensor store: the three arguments
are the addresses of the nodal field, the inputs tensor and the forcing
tensor; every torch statement of the source body allocates the storage for
its result, and the returned scalar is paired with the post-call store.
The call observably fails (none) if an argument address does not hold a
tensor of the expected kind. -/
def Poisson.lossCall {B H W NQ E1 E2 : ℕ} (self : DiffNet2DFEM B H W NQ E1 E2)
    (h0 : Heap B H W NQ E1 E2) (au ai af : ℕ) :
    Option (ℚ × Heap B H W NQ E1 E2) :=
  match h0.cells au, h0.cells ai, h0.cells af with
  | some (TVal.grid u), some (TVal.chan inputs_tensor), some (TVal.grid f) =>
    let nu := sliceC inputs_tensor 0
    let bc1 := sliceC inputs_tensor 1
    let bc2 := sliceC inputs_tensor 2
    let u1 := torchWhere (tgtS bc1 (1/2)) (tScalarAdd 1 (tmulS u 0)) u
    let u2 := torchWhere (tgtS bc2 (1/2)) (tmulS u1 0) u1
    let nu_gp := self.gauss_pt_evaluation nu
    let f_gp := self.gauss_pt_evaluation f
    let u_gp := self.gauss_pt_evaluation u2
    let u_x_gp := self.gauss_pt_evaluation_der_x u2
    let u_y_gp := self.gauss_pt_evaluation_der_y u2
    let res_elmwise : QPT B NQ E1 E2 := fun b q e1 e2 =>
      self.gpw q * (nu_gp b q e1 e2 *
          (u_x_gp b q e1 e2 ^ 2 + u_y_gp b q e1 e2 ^ 2)
        - u_gp b q e1 e2 * f_gp b q e1 e2)
    let res_summed : Fin B → Fin E1 → Fin E2 → ℚ := fun b e1 e2 =>
      ∑ q, res_elmwise b q e1 e2
    let lossv := torchMean res_summed
    some (lossv, h0.allocList [TVal.grid nu, TVal.grid bc1, TVal.grid bc2,
      TVal.grid u1, TVal.grid u2, TVal.qp nu_gp, TVal.qp f_gp, TVal.qp u_gp,
      TVal.qp u_x_gp, TVal.qp u_y_gp, TVal.qp res_elmwise,
      TVal.red res_summed, TVal.scalar lossv])
  | _, _, _ => none

/-- The store-level call returns exactly the pure `Poisson.loss` value and
never writes an existing address: every cell allocated before the call is
unchanged afterwards. -/
theorem poisson_lossCall_spec {B H W NQ E1 E2 : ℕ}
    (self : DiffNet2DFEM B H W NQ E1 E2) (h : Heap B H W NQ E1 E2)
    (au ai af : ℕ) (u : Grid B H W) (inputs_tensor : Chan B 3 H W)
    (forcing_tensor : Grid B H W)
    (hu : h.cells au = some (TVal.grid u))
    (hi : h.cells ai = some (TVal.chan inputs_tensor))
    (hf : h.cells af = some (TVal.grid forcing_tensor)) :
    ∃ h2, Poisson.lossCall self h au ai af =
        some (Poisson.loss self u inputs_tensor forcing_tensor, h2) ∧
      ∀ a, a < h.next → h2.cells a = h.cells a := by
  unfold Poisson.lossCall
  rw [hu, hi, hf]
  exact ⟨_, rfl, fun a ha => Heap.allocList_preserves _ h a ha⟩

/-- Claim C9: `Poisson.loss` is deterministic and side-effect-free: two
calls against stores holding identical u, inputs and forcing tensors
return the same loss value (the pure `Poisson.loss` of those tensors), and
a call leaves the three argument tensors (in particular the nodal field u)
unchanged in the store. -/
theorem poisson_loss_deterministic_and_sideEffectFree {B H W NQ E1 E2 : ℕ}
    (self : DiffNet2DFEM B H W NQ E1 E2) (h h3 : Heap B H W NQ E1 E2)
    (au ai af bu bi bf : ℕ) (u : Grid B H W) (inputs_tensor : Chan B 3 H W)
    (forcing_tensor : Grid B H W)
    (hu : h.cells au = some (TVal.grid u))
    (hi : h.cells ai = some (TVal.chan inputs_tensor))
    (hf : h.cells af = some (TVal.grid forcing_tensor))
    (hu3 : h3.cells bu = some (TVal.grid u))
    (hi3 : h3.cells bi = some (TVal.chan inputs_tensor))
    (hf3 : h3.cells bf = some (TVal.grid forcing_tensor))
    (hau : au < h.next) (hai : ai < h.next) (haf : af < h.next) :
    ∃ h2 h4,
      Poisson.lossCall self h au ai af =
        some (Poisson.loss self u inputs_tensor forcing_tensor, h2) ∧
      Poisson.lossCall self h3 bu bi bf =
        some (Poisson.loss self u inputs_tensor forcing_tensor, h4) ∧
      h2.cells au = some (TVal.grid u) ∧
      h2.cells ai = some (TVal.chan inputs_tensor) ∧
      h2.cells af = some (TVal.grid forcing_tensor) := by
  obtain ⟨h2, he, hpres⟩ :=
    poisson_lossCall_spec self h au ai af u inputs_tensor forcing_tensor
      hu hi hf
  obtain ⟨h4, he4, _⟩ :=
    poisson_lossCall_spec self h3 bu bi bf u inputs_tensor forcing_tensor
      hu3 hi3 hf3
  refine ⟨h2, h4, he, he4, ?_, ?_, ?_⟩
  · rw [hpres au hau]; exact hu
  · rw [hpres ai hai]; exact hi
  · rw [hpres af haf]; exact hf

/-- A concrete three-cell store holding a field, an inputs tensor and a
forcing tensor at addresses 0, 1, 2, on the 1 x 1 grid. -/
def heap0 : Heap 1 1 1 1 1 1 :=
  ⟨fun a =>
    if a = 0 then some (TVal.grid (fun _ _ _ => 4))
    else if a = 1 then some (TVal.chan (fun _ _ _ _ => 1))
    else if a = 2 then some (TVal.grid (fun _ _ _ => 0))
    else none, 3⟩

/-- Witness for C9: two calls against the concrete store `heap0` (with the
trivial engine) return the pure loss value and leave the argument cells
unchanged. -/
theorem poisson_loss_deterministic_and_sideEffectFree_witness :
    ∃ h2 h4,
      Poisson.lossCall trivialFEM heap0 0 1 2 =
        some (Poisson.loss trivialFEM (fun _ _ _ => 4) (fun _ _ _ _ => 1)
          (fun _ _ _ => 0), h2) ∧
      Poisson.lossCall trivialFEM heap0 0 1 2 =
        some (Poisson.loss trivialFEM (fun _ _ _ => 4) (fun _ _ _ _ => 1)
          (fun _ _ _ => 0), h4) ∧
      h2.cells 0 = some (TVal.grid (fun _ _ _ => 4)) ∧
      h2.cells 1 = some (TVal.chan (fun _ _ _ _ => 1)) ∧
      h2.cells 2 = some (TVal.grid (fun _ _ _ => 0)) :=
  poisson_loss_deterministic_and_sideEffectFree trivialFEM heap0 heap0
    0 1 2 0 1 2 (fun _ _ _ => 4) (fun _ _ _ _ => 1) (fun _ _ _ => 0)
    rfl rfl rfl rfl rfl rfl (by decide) (by decide) (by decide)
